import Mathlib

/-!
Verification of the routing, response-validation, settings and request
lifecycle layers of the async-web framework (src/atom, src/railway).

Each definition is a shallow embedding of a Python function from the
repository; the source file and symbol are named in its doc comment.
Machine-level concerns (sockets, the event loop) are abstracted away; the
decision logic is translated verbatim.
-/

/- ===================================================================
   Section 1: route resolution (src/atom/app.py, Application._resolve)
   =================================================================== -/

/-- A registered route as the resolver sees it: the compiled pattern string
and the HTTP method.  Pattern matching (`re.fullmatch` with named groups) is
abstracted as the `matcher` argument of `resolve`: `matcher pat p` is
`re.fullmatch(pat, p)`, returning the named captures on a full match. -/
structure RouteR where
  path : String
  method : String
deriving DecidableEq, Repr

/-- Outcome of `Application._resolve`: the matched captures and route, or one
of the two HTTP errors the method raises. -/
inductive ResolveResult where
  | found (captures : List (String × String)) (route : RouteR)
  | methodNotAllowed
  | notFound
deriving DecidableEq, Repr

/-- src/atom/app.py, `Application._resolve`: iterate the routes in
registration order; on the first pattern that fully matches the path, check
the method and raise `MethodNotAllowed` on mismatch, otherwise return
`(match.groupdict(), route)`; raise `NotFound` when no pattern matched. -/
def resolve (matcher : String → String → Option (List (String × String)))
    (routes : List RouteR) (method path : String) : ResolveResult :=
  match routes with
  | [] => .notFound
  | r :: rest =>
    match matcher r.path path with
    | none => resolve matcher rest method path
    | some caps => if r.method ≠ method then .methodNotAllowed else .found caps r

/-- Helper for the spec-side resolver: scan with a pending-405 flag. -/
def resolveSpecGo (matcher : String → String → Option (List (String × String)))
    (method path : String) : List RouteR → Bool → ResolveResult
  | [], cand => if cand then .methodNotAllowed else .notFound
  | r :: rest, cand =>
    match matcher r.path path with
    | none => resolveSpecGo matcher method path rest cand
    | some caps =>
      if r.method = method then .found caps r
      else resolveSpecGo matcher method path rest true

/-- Resolution as the specification words it (spec.md §4.E): a
path-matching route whose method differs only records a 405 candidate and
iteration continues; `MethodNotAllowed` is raised only after the scan finds
no full match. -/
def resolveSpec (matcher : String → String → Option (List (String × String)))
    (routes : List RouteR) (method path : String) : ResolveResult :=
  resolveSpecGo matcher method path routes false

/-- A literal matcher: `re.fullmatch` of a pattern containing no regex
metacharacters matches exactly that literal string and captures nothing. -/
def litMatcher (pat p : String) : Option (List (String × String)) :=
  if pat = p then some [] else none

/-- The first route whose pattern fully matches the path, with its
captures. -/
def firstPathMatch (matcher : String → String → Option (List (String × String))) :
    List RouteR → String → Option (List (String × String) × RouteR)
  | [], _ => none
  | r :: rest, p =>
    match matcher r.path p with
    | some caps => some (caps, r)
    | none => firstPathMatch matcher rest p

/- ===================================================================
   Section 2: status-code validation
   (src/atom/app.py, Application._validate_status_code)
   =================================================================== -/

/-- Outcome of `Application._validate_status_code`: the accepted code, or one
of the two `ValueError`s it raises. -/
inductive StatusValidation where
  | ok (code : Int)
  | redirectError
  | invalidError
deriving DecidableEq, Repr

/-- src/atom/app.py, `Application._validate_status_code`: 3xx codes are
rejected toward the redirect mechanism, then codes outside 200..599 are
rejected as invalid, and everything else is returned unchanged. -/
def validate_status_code (code : Int) : StatusValidation :=
  if 300 ≤ code ∧ code ≤ 399 then .redirectError
  else if ¬ (200 ≤ code ∧ code ≤ 599) then .invalidError
  else .ok code

/- ===================================================================
   Section 3: settings from environment
   (src/atom/settings.py, Settings.from_env_vars)
   =================================================================== -/

/-- src/atom/settings.py, `Settings.from_env_vars`: builds an empty
`Settings`, loops over the environment, and for every name starting with
the prefix splits the name — binding both pieces to throwaway variables —
and never stores anything; the fresh (empty) `Settings` is returned.  The
settings mapping is modelled as an association list, the environment as a
list of (name, value) pairs, and the prefix is a parameter. -/
def from_env_vars (pfx : String) (envs : List (String × String)) :
    List (String × String) :=
  envs.foldl (fun acc nv => if nv.1.startsWith pfx then acc else acc) []

/- ===================================================================
   Section 4: request close / middleware short-circuit
   (src/railway/request.py Request.close, Request.is_closed;
    src/atom/app.py Application._request_handler)
   =================================================================== -/

/-- The connection-level state of a `Request` relevant to `close()` and
`is_closed()`: the `Request._closed` flag and the state of the underlying
writer. -/
structure ReqState where
  closed : Bool
  writerClosed : Bool
deriving DecidableEq, Repr

/-- src/railway/request.py, `Request.close`: when not already closed, closes
the writer and waits for it; the `_closed` flag is never assigned. -/
def request_close (s : ReqState) : ReqState :=
  if s.closed then s else { s with writerClosed := true }

/-- src/railway/request.py, `Request.is_closed`: returns the `_closed`
flag. -/
def request_is_closed (s : ReqState) : Bool := s.closed

/-- src/atom/app.py, `Application._request_handler` after route resolution:
the middlewares (each a state transformer on the request, gathered before the
guard) run to completion, then the handler is invoked unless the
`request.is_closed()` guard fires. -/
def handler_runs (mids : List (ReqState → ReqState)) (s : ReqState) : Bool :=
  !(request_is_closed (mids.foldl (fun st m => m st) s))

/- ===================================================================
   Theorems: C1, C4, C6, C9
   =================================================================== -/

/-- C1 (counterexample): with routes `POST /a` then `GET /a` registered in
that order, a `GET /a` request must, per the claim, skip the method-mismatched
first route and resolve to the second; the code instead raises
`MethodNotAllowed` at the first path match. -/
theorem C1_counterexample :
    resolve litMatcher [⟨"/a", "POST"⟩, ⟨"/a", "GET"⟩] "GET" "/a" =
      ResolveResult.methodNotAllowed ∧
    resolveSpec litMatcher [⟨"/a", "POST"⟩, ⟨"/a", "GET"⟩] "GET" "/a" =
      ResolveResult.found [] ⟨"/a", "GET"⟩ ∧
    resolve litMatcher [⟨"/a", "POST"⟩, ⟨"/a", "GET"⟩] "GET" "/a" ≠
      ResolveResult.found [] ⟨"/a", "GET"⟩ := by
  refine ⟨rfl, rfl, ?_⟩
  decide

/-- C1 (amended): route resolution stops at the first route whose pattern
fully matches the path; if that route's method equals the request method it
yields the captures and the route, otherwise `MethodNotAllowed` is raised
immediately, without consulting later routes and without collecting allowed
methods; `NotFound` is raised when no pattern matches the path. -/
theorem C1_resolve_first_match (matcher : String → String → Option (List (String × String)))
    (routes : List RouteR) (method path : String) :
    resolve matcher routes method path =
      match firstPathMatch matcher routes path with
      | none => ResolveResult.notFound
      | some (caps, r) =>
          if r.method = method then ResolveResult.found caps r
          else ResolveResult.methodNotAllowed := by
  induction routes with
  | nil => rfl
  | cons r rest ih =>
    simp only [resolve, firstPathMatch]
    cases matcher r.path path with
    | none => exact ih
    | some caps =>
      by_cases h : r.method = method <;> simp [h]

/-- C4 (counterexample): the claim accepts every non-3xx code in 100..599, in
particular 150; the code rejects 150 as invalid (its range check is
200..599). -/
theorem C4_counterexample :
    validate_status_code 150 = StatusValidation.invalidError ∧
    validate_status_code 150 ≠ StatusValidation.ok 150 := by
  decide

/-- C4 (amended): handler-supplied status validation accepts exactly the
codes in 200–599 that are not in 300–399, returning them unchanged; every
code in 300–399 is rejected toward the dedicated redirect mechanism; every
code outside 200–599 is rejected as invalid. -/
theorem C4_validate_status_code (code : Int) :
    (validate_status_code code = StatusValidation.ok code ↔
      (200 ≤ code ∧ code ≤ 599 ∧ ¬ (300 ≤ code ∧ code ≤ 399))) ∧
    (validate_status_code code = StatusValidation.redirectError ↔
      (300 ≤ code ∧ code ≤ 399)) ∧
    (validate_status_code code = StatusValidation.invalidError ↔
      ¬ (200 ≤ code ∧ code ≤ 599)) := by
  unfold validate_status_code
  by_cases h1 : 300 ≤ code ∧ code ≤ 399 <;> by_cases h2 : 200 ≤ code ∧ code ≤ 599
  all_goals simp [h1, h2]
  all_goals omega

/-- C6 (code evaluated at the failing input): `Request.close()` never assigns
the `_closed` flag, so `is_closed()` is unchanged by `close()`; consequently,
after a middleware calls `request.close()` on an open request, the
`is_closed()` guard in `_request_handler` does not fire and the handler runs
— the claim says it must not. -/
theorem C6_close_does_not_stop_handler :
    (∀ s : ReqState, request_is_closed (request_close s) = request_is_closed s) ∧
    handler_runs [request_close] ⟨false, false⟩ = true := by
  constructor
  · intro s
    cases s with
    | mk c w => cases c <;> rfl
  · rfl

/-- C9 (code evaluated at the failing input): `Settings.from_env_vars` copies
nothing — for every prefix and every environment, the returned settings
mapping is empty, so in particular a variable named prefix++"foo" bound to
"bar" does not surface as an upper-cased key "FOO". -/
theorem C9_from_env_vars_copies_nothing (pfx : String)
    (envs : List (String × String)) :
    from_env_vars pfx envs = [] ∧
    ("FOO", "bar") ∉ from_env_vars pfx (("x", "y") :: envs) := by
  have h : ∀ (l : List (String × String)) (acc : List (String × String)),
      l.foldl (fun acc nv => if nv.1.startsWith pfx then acc else acc) acc = acc := by
    intro l
    induction l with
    | nil => intro acc; rfl
    | cons e rest ih =>
      intro acc
      rw [List.foldl_cons, ih, ite_self]
  constructor
  · exact h envs []
  · unfold from_env_vars
    rw [h (("x", "y") :: envs) []]
    simp

/- ===================================================================
   Section 5: response parsing (src/atom/app.py, Application.parse_response)
   and sending (src/railway/request.py, Request.send)
   =================================================================== -/

/-- The run-time shapes a handler return value can have, as the isinstance
chain of `Application.parse_response` distinguishes them.
`builtFileResponseV` is a `FileResponse` constructed inside `parse_response`
from a `File`; a tuple is modelled with exactly two components (the shape the
claim and the unpacking `response, status = response` assume). -/
inductive PyVal where
  | fileV
  | fileResponseV
  | responseV
  | builtFileResponseV
  | modelV
  | strV (s : String)
  | dictV
  | listV
  | bytesV
  | noneV
  | intV (n : Int)
  | tupleV (a b : PyVal)
deriving DecidableEq, Repr

/-- `isinstance(response, Response)`: `FileResponse` subclasses `Response`. -/
def isResponseInst : PyVal → Bool
  | .fileResponseV | .responseV | .builtFileResponseV => true
  | _ => false

/-- The response `parse_response` hands back, when it hands one back. -/
inductive RespKind where
  | identityResp (v : PyVal)
  | jsonResp (status : Int)
  | htmlResp (s : String) (status : Int)
deriving DecidableEq, Repr

/-- Outcome of `Application.parse_response`: a returned value (`none` models
Python's implicit `return None`), or one of the exceptions it raises. -/
inductive ParseOutcome where
  | ok (r : Option RespKind)
  | typeErrorRaised
  | valueErrorRaised
deriving DecidableEq, Repr

/-- src/atom/app.py, `Application.parse_response` after tuple unpacking:
`v` is the (possibly unpacked) handler value and `status` the validated
code.  The `isinstance(response, File)` branch rebinds `response` to a fresh
`FileResponse` and — because the `Response` test is an `elif` — control falls
through to the later isinstance checks, all of which fail for a
`FileResponse`, so the function ends without returning it. -/
def parse_response_body (v : PyVal) (status : Int) : ParseOutcome :=
  let v' := if v = PyVal.fileV then PyVal.builtFileResponseV else v
  if v ≠ PyVal.fileV ∧ isResponseInst v = true then .ok (some (.identityResp v))
  else if v' = PyVal.modelV then .ok (some (.jsonResp status))
  else
    match v' with
    | .strV s => .ok (some (.htmlResp s status))
    | .dictV => .ok (some (.jsonResp status))
    | .listV => .ok (some (.jsonResp status))
    | _ => .ok none

/-- src/atom/app.py, `Application.parse_response`: a tuple is unpacked into
value and status, the status must be an `int` (else `TypeError`) and is
validated (a `ValueError` propagates); everything else runs with the default
status 200. -/
def parse_response (v : PyVal) : ParseOutcome :=
  match v with
  | .tupleV inner st =>
    match st with
    | .intV code =>
      match validate_status_code code with
      | .ok c => parse_response_body inner c
      | _ => .valueErrorRaised
    | _ => .typeErrorRaised
  | _ => parse_response_body v 200

/-- Outcome of `Request.send`. -/
inductive SendOutcome where
  | sent (r : RespKind)
  | typeErrorRaised
  | valueErrorRaised
  | noneAttributeError
deriving DecidableEq, Repr

/-- src/railway/request.py, `Request.send` with `convert=True`: the handler
value goes through the application's `parse_response`, then
`response.prepare()` is awaited on the result; when `parse_response`
returned `None`, that is an attribute access on `None` (`AttributeError`). -/
def send (v : PyVal) : SendOutcome :=
  match parse_response v with
  | .ok (some r) => .sent r
  | .ok none => .noneAttributeError
  | .typeErrorRaised => .typeErrorRaised
  | .valueErrorRaised => .valueErrorRaised

/- ===================================================================
   Section 6: argument conversion (src/atom/app.py, Application._convert)
   =================================================================== -/

/-- Parameter annotations as `Application._convert` distinguishes them: no
annotation, an ordinary one-argument constructor annotation (e.g. `int`),
or a Model subclass.  `conv f`: `f` models `value.annotation(param)`,
returning `none` when the call raises `ValueError`.  For a Model subclass,
`fromJson` models `Model.from_json(data)` (atom/models.py is not in src/),
returning `none` when construction raises, and `callStr` models calling the
class on a captured string on the present-capture path (only a `ValueError`
from it is caught, like any other annotation call). -/
inductive Ann where
  | emptyAnn
  | conv (f : String → Option Nat)
  | modelAnn (fromJson : Nat → Option Nat) (callStr : String → Option Nat)

/-- Values the converter binds into the kwargs mapping. -/
inductive PVal where
  | rawStr (s : String)
  | converted (n : Nat)
  | modelVal (m : Nat)
deriving DecidableEq, Repr

/-- The exceptions `Application._convert` can raise: `BadConversion` with
the parameter name, the bare `raise ValueError` of the Model branch, or an
exception escaping `Model.from_json`, which propagates unwrapped. -/
inductive ConvertError where
  | badConversion (param : String)
  | valueErrorRaised
  | modelConstructionError
deriving DecidableEq, Repr

inductive ConvertResult where
  | ok (kwargs : List (String × PVal))
  | err (e : ConvertError)
deriving DecidableEq, Repr

/-- First-match association-list lookup (`dict.get`). -/
def alookup {α : Type} : List (String × α) → String → Option α
  | [], _ => none
  | (k, v) :: rest, key => if k = key then some v else alookup rest key

/-- Result of processing one declared parameter in `_convert`. -/
inductive StepResult where
  | cont (kwargs : List (String × PVal))
  | halt (e : ConvertError)

/-- One iteration of the loop in `Application._convert` for parameter `key`
with annotation `ann`.  A present, truthy (non-empty) capture is passed raw
when unannotated, otherwise fed to the annotation call with `ValueError`
becoming `BadConversion`.  An absent (or empty, hence falsy) capture whose
annotation is a Model subclass reads the JSON body and looks up the
parameter name: a truthy sub-document is fed to `from_json`, anything else
triggers the bare `raise ValueError`; with any other annotation the
parameter is silently skipped.  JSON sub-documents are modelled as `Nat`
with `0` standing for a falsy one (Python `if data:`). -/
def convertStep (args : List (String × String)) (body : List (String × Nat))
    (key : String) (ann : Ann) (kwargs : List (String × PVal)) : StepResult :=
  match alookup args key with
  | some param =>
    if param ≠ "" then
      match ann with
      | .emptyAnn => .cont (kwargs ++ [(key, .rawStr param)])
      | .conv f =>
        match f param with
        | some n => .cont (kwargs ++ [(key, .converted n)])
        | none => .halt (.badConversion key)
      | .modelAnn _ callStr =>
        match callStr param with
        | some n => .cont (kwargs ++ [(key, .converted n)])
        | none => .halt (.badConversion key)
    else
      match ann with
      | .modelAnn fromJson _ =>
        match alookup body key with
        | some d =>
          if d ≠ 0 then
            match fromJson d with
            | some m => .cont (kwargs ++ [(key, .modelVal m)])
            | none => .halt .modelConstructionError
          else .halt .valueErrorRaised
        | none => .halt .valueErrorRaised
      | _ => .cont kwargs
  | none =>
    match ann with
    | .modelAnn fromJson _ =>
      match alookup body key with
      | some d =>
        if d ≠ 0 then
          match fromJson d with
          | some m => .cont (kwargs ++ [(key, .modelVal m)])
          | none => .halt .modelConstructionError
        else .halt .valueErrorRaised
      | none => .halt .valueErrorRaised
    | _ => .cont kwargs

/-- Loop of `Application._convert` over the declared parameters. -/
def convertGo (args : List (String × String)) (body : List (String × Nat)) :
    List (String × Ann) → List (String × PVal) → ConvertResult
  | [], kwargs => .ok kwargs
  | (key, ann) :: rest, kwargs =>
    match convertStep args body key ann kwargs with
    | .cont k => convertGo args body rest k
    | .halt e => .err e

/-- src/atom/app.py, `Application._convert`. -/
def convert (params : List (String × Ann)) (args : List (String × String))
    (body : List (String × Nat)) : ConvertResult :=
  convertGo args body params []

/- ===================================================================
   Theorems: C10, C5
   =================================================================== -/

/-- C10: a handler return value that is none of a 2-tuple, File, Response,
Model, str, dict, or list — raw bytes, `None`, or an int, for example —
makes `parse_response` fall off the end of its isinstance chain and return
`None`; the subsequent `send` then operates on `None` and fails its
attribute access. -/
theorem C10_parse_response_none :
    parse_response PyVal.bytesV = ParseOutcome.ok none ∧
    parse_response PyVal.noneV = ParseOutcome.ok none ∧
    (∀ n : Int, parse_response (PyVal.intV n) = ParseOutcome.ok none) ∧
    send PyVal.bytesV = SendOutcome.noneAttributeError ∧
    send PyVal.noneV = SendOutcome.noneAttributeError :=
  ⟨rfl, rfl, fun _ => rfl, rfl, rfl⟩

/-- C5 (counterexample): a handler parameter `m` with a Model annotation,
absent from the captured strings and with no matching key in the JSON body:
the claim requires `BadConversion`, but the code raises a bare
`ValueError`. -/
theorem C5_counterexample :
    convert [("m", Ann.modelAnn (fun d => some d) (fun _ => none))] [] [] =
      ConvertResult.err ConvertError.valueErrorRaised ∧
    convert [("m", Ann.modelAnn (fun d => some d) (fun _ => none))] [] [] ≠
      ConvertResult.err (ConvertError.badConversion "m") := by
  refine ⟨rfl, ?_⟩
  decide

/-- C5 (amended): for a handler parameter absent from the captured-strings
map whose annotation is a Model type, the converter reads the request's JSON
body and looks up the parameter's name; if the key is missing it raises a
bare `ValueError` — not `BadConversion` — and if the model constructor
fails, its error propagates unwrapped; `BadConversion` is never raised on
this absent-parameter path. -/
theorem C5_model_branch (fromJson : Nat → Option Nat) (callStr : String → Option Nat)
    (key : String) (args : List (String × String)) (body : List (String × Nat))
    (habsent : alookup args key = none) :
    (alookup body key = none →
      convert [(key, Ann.modelAnn fromJson callStr)] args body =
        ConvertResult.err ConvertError.valueErrorRaised) ∧
    (∀ d, alookup body key = some d → d ≠ 0 → fromJson d = none →
      convert [(key, Ann.modelAnn fromJson callStr)] args body =
        ConvertResult.err ConvertError.modelConstructionError) ∧
    (∀ p, convert [(key, Ann.modelAnn fromJson callStr)] args body ≠
        ConvertResult.err (ConvertError.badConversion p)) := by
  unfold convert convertGo convertStep
  rw [habsent]
  refine ⟨fun hb => ?_, fun d hb hd hf => ?_, fun p => ?_⟩
  · rw [hb]
  · rw [hb]
    simp only [hd, if_pos, hf]
    simp [hd]
  · cases hb : alookup body key with
    | none => simp [hb]
    | some d =>
      by_cases hd : d = 0
      · simp [hb, hd]
      · cases hf : fromJson d with
        | none => simp [hb, hd, hf]
        | some m => simp [hb, hd, hf, convertGo]

/-- C5 (witness): the amended theorem applied at a concrete input: parameter
`m`, captures not containing `m`, empty JSON body. -/
theorem C5_model_branch_witness :
    convert [("m", Ann.modelAnn (fun d => some d) (fun _ => none))] [("other", "1")] [] =
      ConvertResult.err ConvertError.valueErrorRaised :=
  (C5_model_branch (fun d => some d) (fun _ => none) "m" [("other", "1")] [] (by decide)).1 rfl

/- ===================================================================
   Section 7: base64 (Python base64.b64encode / b64decode on canonical
   input), ASCII lowercasing, and case-insensitive headers
   =================================================================== -/

/-- The base64 alphabet, value to character. -/
def b64valToChar (v : Nat) : Char :=
  if v < 26 then Char.ofNat (65 + v)
  else if v < 52 then Char.ofNat (97 + (v - 26))
  else if v < 62 then Char.ofNat (48 + (v - 52))
  else if v = 62 then '+'
  else '/'

/-- The base64 alphabet, character to value; `none` for a character outside
the alphabet. -/
def b64charToVal (c : Char) : Option Nat :=
  if 'A' ≤ c ∧ c ≤ 'Z' then some (c.toNat - 65)
  else if 'a' ≤ c ∧ c ≤ 'z' then some (c.toNat - 97 + 26)
  else if '0' ≤ c ∧ c ≤ '9' then some (c.toNat - 48 + 52)
  else if c = '+' then some 62
  else if c = '/' then some 63
  else none

/-- `base64.b64encode` over a byte list (bytes as `Nat` below 256): three
bytes become four alphabet characters; a remainder of one or two bytes is
padded with `=`. -/
def b64encode : List Nat → List Char
  | [] => []
  | [b1] => [b64valToChar (b1 / 4), b64valToChar (b1 % 4 * 16), '=', '=']
  | [b1, b2] =>
    [b64valToChar (b1 / 4), b64valToChar (b1 % 4 * 16 + b2 / 16),
     b64valToChar (b2 % 16 * 4), '=']
  | b1 :: b2 :: b3 :: rest =>
    b64valToChar (b1 / 4) :: b64valToChar (b1 % 4 * 16 + b2 / 16) ::
    b64valToChar (b2 % 16 * 4 + b3 / 64) :: b64valToChar (b3 % 64) ::
    b64encode rest

/-- `base64.b64decode` over canonically padded base64 text: groups of four
characters yield three bytes; a final `xx==` or `xxx=` group yields one or
two; anything malformed fails (`binascii.Error`). -/
def b64decode : List Char → Option (List Nat)
  | [] => some []
  | c1 :: c2 :: c3 :: c4 :: rest =>
    if c3 = '=' ∧ c4 = '=' ∧ rest = [] then
      match b64charToVal c1, b64charToVal c2 with
      | some v1, some v2 => some [v1 * 4 + v2 / 16]
      | _, _ => none
    else if c4 = '=' ∧ rest = [] then
      match b64charToVal c1, b64charToVal c2, b64charToVal c3 with
      | some v1, some v2, some v3 =>
        some [v1 * 4 + v2 / 16, v2 % 16 * 16 + v3 / 4]
      | _, _, _ => none
    else
      match b64charToVal c1, b64charToVal c2, b64charToVal c3, b64charToVal c4,
          b64decode rest with
      | some v1, some v2, some v3, some v4, some bs =>
        some ((v1 * 4 + v2 / 16) :: (v2 % 16 * 16 + v3 / 4) :: (v3 % 4 * 64 + v4) :: bs)
      | _, _, _, _, _ => none
  | _ => none

/-- ASCII lowercasing of one character (`str.lower` on the header values in
play, which are ASCII). -/
def asciiLower (c : Char) : Char :=
  if 'A' ≤ c ∧ c ≤ 'Z' then Char.ofNat (c.toNat + 32) else c

/-- ASCII lowercasing of a string. -/
def lowerStr (s : String) : String := String.mk (s.data.map asciiLower)

/-- Modelled from the spec: `Headers` (railway/headers.py is not in src/) is
a case-insensitive mapping (spec.md §3); lookup returns the first entry
whose name matches case-insensitively. -/
def hlookup (hs : List (String × String)) (name : String) : Option String :=
  match hs with
  | [] => none
  | (k, v) :: rest => if lowerStr k = lowerStr name then some v else hlookup rest name

/-- Header membership (`name in self.headers`). -/
def hcontains (hs : List (String × String)) (name : String) : Bool :=
  (hlookup hs name).isSome

/-- Decoding inverts the alphabet on values below 64. -/
theorem b64_val_char : ∀ v : Nat, v < 64 → b64charToVal (b64valToChar v) = some v := by
  decide

/-- Alphabet characters are never the padding character. -/
theorem b64valToChar_ne_pad : ∀ v : Nat, v < 64 → b64valToChar v ≠ '=' := by
  decide

/-- Decoding inverts encoding on byte lists (bytes below 256). -/
theorem b64_round_trip : ∀ bs : List Nat, (∀ b ∈ bs, b < 256) →
    b64decode (b64encode bs) = some bs
  | [], _ => rfl
  | [b1], h => by
    have hb1 : b1 < 256 := h b1 (by simp)
    have h1 := b64_val_char (b1 / 4) (by omega)
    have h2 := b64_val_char (b1 % 4 * 16) (by omega)
    simp [b64encode, b64decode, h1, h2]
    omega
  | [b1, b2], h => by
    have hb1 : b1 < 256 := h b1 (by simp)
    have hb2 : b2 < 256 := h b2 (by simp)
    have h1 := b64_val_char (b1 / 4) (by omega)
    have h2 := b64_val_char (b1 % 4 * 16 + b2 / 16) (by omega)
    have h3 := b64_val_char (b2 % 16 * 4) (by omega)
    have hp := b64valToChar_ne_pad (b2 % 16 * 4) (by omega)
    simp [b64encode, b64decode, h1, h2, h3, hp]
    omega
  | b1 :: b2 :: b3 :: rest, h => by
    have hb1 : b1 < 256 := h b1 (by simp)
    have hb2 : b2 < 256 := h b2 (by simp)
    have hb3 : b3 < 256 := h b3 (by simp)
    have ih := b64_round_trip rest (fun b hb => h b (by simp [hb]))
    have h1 := b64_val_char (b1 / 4) (by omega)
    have h2 := b64_val_char (b1 % 4 * 16 + b2 / 16) (by omega)
    have h3 := b64_val_char (b2 % 16 * 4 + b3 / 64) (by omega)
    have h4 := b64_val_char (b3 % 64) (by omega)
    have hp3 := b64valToChar_ne_pad (b2 % 16 * 4 + b3 / 64) (by omega)
    have hp4 := b64valToChar_ne_pad (b3 % 64) (by omega)
    simp [b64encode, b64decode, h1, h2, h3, h4, hp3, hp4, ih]
    omega

/- ===================================================================
   Section 8: websocket upgrade validation
   (src/railway/request.py, Request.is_websocket)
   =================================================================== -/

/-- A request as `Request.is_websocket` examines it: method, version and the
header mapping. -/
structure WsRequest where
  method : String
  version : String
  headers : List (String × String)
deriving DecidableEq, Repr

/-- Outcome of `Request.is_websocket`: the returned boolean, or the
`binascii.Error` escaping from `base64.b64decode` on a malformed key. -/
inductive WsCheck where
  | result (b : Bool)
  | decodeError
deriving DecidableEq, Repr

/-- The `required` tuple in `Request.is_websocket`. -/
def requiredWsHeaders : List String :=
  ["Host", "Upgrade", "Connection", "Sec-WebSocket-Version", "Sec-WebSocket-Key"]

/-- src/railway/request.py, `Request.is_websocket`: GET only, HTTP/1.1 only,
all five required headers present, then the per-header for-loop (unrolled in
the tuple's order; Host and Connection carry no value check): `Upgrade`
lowercases to "websocket", `Sec-WebSocket-Version` is "13", and the
`Sec-WebSocket-Key` value base64-decodes to exactly 16 bytes. -/
def is_websocket (r : WsRequest) : WsCheck :=
  if r.method ≠ "GET" then .result false
  else if r.version ≠ "HTTP/1.1" then .result false
  else if ¬ (requiredWsHeaders.all fun n => hcontains r.headers n) then .result false
  else if lowerStr ((hlookup r.headers "Upgrade").getD "") ≠ "websocket" then .result false
  else if (hlookup r.headers "Sec-WebSocket-Version").getD "" ≠ "13" then .result false
  else
    match b64decode ((hlookup r.headers "Sec-WebSocket-Key").getD "").data with
    | none => .decodeError
    | some key => if key.length ≠ 16 then .result false else .result true

/-- C3: `Request.is_websocket()` returns True exactly when the method is
GET, the version is HTTP/1.1, the headers Host, Upgrade, Connection,
Sec-WebSocket-Version and Sec-WebSocket-Key are all present, the Upgrade
value equals "websocket" case-insensitively, the Sec-WebSocket-Version value
equals "13", and the Sec-WebSocket-Key value base64-decodes to exactly 16
bytes. -/
theorem C3_is_websocket_iff (r : WsRequest) :
    is_websocket r = WsCheck.result true ↔
      (r.method = "GET" ∧ r.version = "HTTP/1.1" ∧
       hcontains r.headers "Host" = true ∧
       hcontains r.headers "Upgrade" = true ∧
       hcontains r.headers "Connection" = true ∧
       hcontains r.headers "Sec-WebSocket-Version" = true ∧
       hcontains r.headers "Sec-WebSocket-Key" = true ∧
       lowerStr ((hlookup r.headers "Upgrade").getD "") = "websocket" ∧
       (hlookup r.headers "Sec-WebSocket-Version").getD "" = "13" ∧
       (∃ key, b64decode ((hlookup r.headers "Sec-WebSocket-Key").getD "").data = some key ∧
          key.length = 16)) := by
  unfold is_websocket
  by_cases h1 : r.method = "GET"
  case neg =>
    rw [if_pos h1]
    exact ⟨fun h => absurd h (by decide), fun h => absurd h.1 h1⟩
  rw [if_neg (fun hn => hn h1)]
  by_cases h2 : r.version = "HTTP/1.1"
  case neg =>
    rw [if_pos h2]
    exact ⟨fun h => absurd h (by decide), fun h => absurd h.2.1 h2⟩
  rw [if_neg (fun hn => hn h2)]
  by_cases h3 : (requiredWsHeaders.all fun n => hcontains r.headers n) = true
  case neg =>
    rw [if_pos h3]
    simp only [requiredWsHeaders, List.all_cons, List.all_nil, Bool.and_eq_true,
      Bool.and_true] at h3
    refine ⟨fun h => absurd h (by decide), fun h => absurd ?_ h3⟩
    exact ⟨h.2.2.1, h.2.2.2.1, h.2.2.2.2.1, h.2.2.2.2.2.1, h.2.2.2.2.2.2.1⟩
  rw [if_neg (fun hn => hn h3)]
  by_cases h4 : lowerStr ((hlookup r.headers "Upgrade").getD "") = "websocket"
  case neg =>
    rw [if_pos h4]
    exact ⟨fun h => absurd h (by decide), fun h => absurd h.2.2.2.2.2.2.2.1 h4⟩
  rw [if_neg (fun hn => hn h4)]
  by_cases h5 : (hlookup r.headers "Sec-WebSocket-Version").getD "" = "13"
  case neg =>
    rw [if_pos h5]
    exact ⟨fun h => absurd h (by decide), fun h => absurd h.2.2.2.2.2.2.2.2.1 h5⟩
  rw [if_neg (fun hn => hn h5)]
  have hall := h3
  simp only [requiredWsHeaders, List.all_cons, List.all_nil, Bool.and_eq_true,
    Bool.and_true] at hall
  obtain ⟨hh, hu, hc, hv, hk⟩ := hall
  cases hdec : b64decode ((hlookup r.headers "Sec-WebSocket-Key").getD "").data with
  | none =>
    refine ⟨fun h => absurd h (by decide), fun h => ?_⟩
    obtain ⟨key, hkey, _⟩ := h.2.2.2.2.2.2.2.2.2
    exact Option.noConfusion hkey
  | some key =>
    by_cases hl : key.length = 16
    · simp [h1, h2, hh, hu, hc, hv, hk, h4, h5, hl]
    · simp [hl]

/- ===================================================================
   Section 9: SHA-1 (hashlib.sha1) over byte lists, and the websocket
   handshake (src/railway/request.py, Request.parse_websocket_key /
   Request.handshake)
   =================================================================== -/

/-- Truncation to a 32-bit word. -/
def w32 (x : Nat) : Nat := x % 4294967296

/-- Left rotation of a 32-bit word by `n` bits. -/
def rotl32 (n x : Nat) : Nat := w32 (x * 2 ^ n + x / 2 ^ (32 - n))

/-- Big-endian bytes of `v`, `n` bytes wide. -/
def toBytesBE : Nat → Nat → List Nat
  | 0, _ => []
  | n + 1, v => toBytesBE n (v / 256) ++ [v % 256]

/-- SHA-1 padding: append 0x80, zeros to 56 mod 64, and the 64-bit
big-endian bit length. -/
def sha1pad (msg : List Nat) : List Nat :=
  msg ++ [128] ++ List.replicate ((119 - msg.length % 64) % 64) 0 ++
    toBytesBE 8 (msg.length * 8)

/-- Big-endian 32-bit words from bytes. -/
def bytesToWords : List Nat → List Nat
  | b1 :: b2 :: b3 :: b4 :: rest =>
    (b1 * 16777216 + b2 * 65536 + b3 * 256 + b4) :: bytesToWords rest
  | _ => []

/-- Split a word list into 16-word chunks; the fuel argument (any bound on
the number of chunks, e.g. the list length) keeps the recursion
structural. -/
def chunk16F : Nat → List Nat → List (List Nat)
  | 0, _ => []
  | _, [] => []
  | fuel + 1, ws => ws.take 16 :: chunk16F fuel (ws.drop 16)

/-- The SHA-1 message schedule: extend a 16-word chunk by `fuel` more
words. -/
def sha1schedule : Nat → List Nat → List Nat
  | 0, w => w
  | fuel + 1, w =>
    let i := w.length
    let x := rotl32 1 (w.getD (i - 3) 0 ^^^ w.getD (i - 8) 0 ^^^
      w.getD (i - 14) 0 ^^^ w.getD (i - 16) 0)
    sha1schedule fuel (w ++ [x])

/-- The SHA-1 round constants. -/
def sha1K (t : Nat) : Nat :=
  if t < 20 then 1518500249
  else if t < 40 then 1859775393
  else if t < 60 then 2400959708
  else 3395469782

/-- The SHA-1 round functions (choose / parity / majority / parity). -/
def sha1f (t b c d : Nat) : Nat :=
  if t < 20 then (b &&& c) ||| ((4294967295 - b) &&& d)
  else if t < 40 then b ^^^ c ^^^ d
  else if t < 60 then (b &&& c) ||| (b &&& d) ||| (c &&& d)
  else b ^^^ c ^^^ d

/-- The five-word SHA-1 state. -/
structure H5 where
  a : Nat
  b : Nat
  c : Nat
  d : Nat
  e : Nat
deriving DecidableEq, Repr

/-- The SHA-1 initial state. -/
def sha1init : H5 := ⟨1732584193, 4023233417, 2562383102, 271733878, 3285377520⟩

/-- One SHA-1 compression over a 16-word chunk. -/
def sha1block (hv : H5) (ws : List Nat) : H5 :=
  let w80 := sha1schedule 64 ws
  let r := ((List.range 80).zip w80).foldl
    (fun s tw =>
      let temp := w32 (rotl32 5 s.a + sha1f tw.1 s.b s.c s.d + s.e + sha1K tw.1 + tw.2)
      ⟨temp, s.a, rotl32 30 s.b, s.c, s.d⟩) hv
  ⟨w32 (hv.a + r.a), w32 (hv.b + r.b), w32 (hv.c + r.c), w32 (hv.d + r.d),
   w32 (hv.e + r.e)⟩

/-- `hashlib.sha1(...).digest()` over a byte list: 20 digest bytes. -/
def sha1 (msg : List Nat) : List Nat :=
  let ws := bytesToWords (sha1pad msg)
  let hv := (chunk16F ws.length ws).foldl sha1block sha1init
  toBytesBE 4 hv.a ++ toBytesBE 4 hv.b ++ toBytesBE 4 hv.c ++
    toBytesBE 4 hv.d ++ toBytesBE 4 hv.e

/-- The fixed RFC 6455 GUID appended to the client key before hashing
(railway/utils.py `GUID`). -/
def wsGUID : String := "258EAFA5-E914-47DA-95CA-C5AB0DC85B11"

/-- Bytes of an ASCII string (`str.encode()` for the ASCII strings in
play). -/
def strBytes (s : String) : List Nat := s.data.map Char.toNat

/-- src/railway/request.py, `Request.parse_websocket_key`: requires
`is_websocket()` (returning `none` when it is false or raises), then hashes
the `Sec-WebSocket-Key` header value concatenated with the GUID and encodes
the SHA-1 digest in base64. -/
def parse_websocket_key (r : WsRequest) : Option String :=
  if is_websocket r ≠ WsCheck.result true then none
  else
    let key := (hlookup r.headers "Sec-WebSocket-Key").getD ""
    some (String.mk (b64encode (sha1 (strBytes (key ++ wsGUID)))))

/-- The handshake response: status code and the headers added to it, in
order. -/
structure HandshakeResponse where
  status : Nat
  headers : List (String × String)
deriving DecidableEq, Repr

/-- src/railway/request.py, `Request.handshake` with no extensions or
subprotocols: computes the accept key and writes a `SwitchingProtocols`
response with the three upgrade headers.  Modelled from the spec:
`SwitchingProtocols` (railway/responses.py is not in src/) is the
101 Switching Protocols response (spec.md §4.C). -/
def handshake (r : WsRequest) : Option HandshakeResponse :=
  match parse_websocket_key r with
  | none => none
  | some key =>
    some ⟨101, [("Upgrade", "websocket"), ("Connection", "Upgrade"),
                ("Sec-WebSocket-Accept", key)]⟩

/-- A websocket upgrade request carrying the given `Sec-WebSocket-Key`
header value, with all the headers the upgrade validation requires. -/
def mkWsRequest (keyHeader : String) : WsRequest :=
  ⟨"GET", "HTTP/1.1",
   [("Host", "server.example.com"), ("Upgrade", "websocket"),
    ("Connection", "Upgrade"), ("Sec-WebSocket-Version", "13"),
    ("Sec-WebSocket-Key", keyHeader)]⟩

/-- C2: for every 16-byte key `K`, a websocket upgrade request carrying
`Sec-WebSocket-Key = base64(K)` receives a handshake response with status
101 and headers `Upgrade: websocket`, `Connection: Upgrade`, and
`Sec-WebSocket-Accept` equal to
`base64(sha1(base64(K) ++ "258EAFA5-E914-47DA-95CA-C5AB0DC85B11"))`. -/
theorem C2_handshake_accept (K : List Nat) (hlen : K.length = 16)
    (hbytes : ∀ b ∈ K, b < 256) :
    handshake (mkWsRequest (String.mk (b64encode K))) =
      some ⟨101, [("Upgrade", "websocket"), ("Connection", "Upgrade"),
        ("Sec-WebSocket-Accept",
         String.mk (b64encode (sha1 (strBytes
           (String.mk (b64encode K) ++ wsGUID)))))]⟩ := by
  have hdec := b64_round_trip K hbytes
  have hws : is_websocket (mkWsRequest (String.mk (b64encode K))) = WsCheck.result true := by
    have step : is_websocket (mkWsRequest (String.mk (b64encode K))) =
        (match b64decode (b64encode K) with
         | none => WsCheck.decodeError
         | some key => if key.length ≠ 16 then WsCheck.result false
           else WsCheck.result true) := rfl
    rw [step, hdec]
    simp [hlen]
  unfold handshake parse_websocket_key
  rw [if_neg (fun hn => hn hws)]
  rfl

/-- C2 (witness): the theorem at the RFC 6455 sample key — the 16 bytes of
"the sample nonce", whose base64 is "dGhlIHNhbXBsZSBub25jZQ==". -/
theorem C2_handshake_accept_witness :
    handshake (mkWsRequest (String.mk (b64encode (strBytes "the sample nonce")))) =
      some ⟨101, [("Upgrade", "websocket"), ("Connection", "Upgrade"),
        ("Sec-WebSocket-Accept",
         String.mk (b64encode (sha1 (strBytes
           (String.mk (b64encode (strBytes "the sample nonce")) ++ wsGUID)))))]⟩ :=
  C2_handshake_accept (strBytes "the sample nonce") (by decide) (by decide)

/- ===================================================================
   Section 10: injection round-trip
   (src/atom/app.py, Application.inject / Application.eject)
   =================================================================== -/

/-- A listener declared on an `Injectable`: the event name and the callback.
Callbacks are modelled as opaque identifiers (`Nat`); binding the owning
object with `functools.partial` is the `bind` function below.  Modelled from
the spec: `Listener` objects (atom/objects.py is not in src/) compare by
value — eject "unregisters the same entries" (spec.md §4.I). -/
structure InjListener where
  event : String
  cb : Nat
deriving DecidableEq, Repr

/-- A route declared on an `Injectable`. -/
structure InjRoute where
  path : String
  method : String
  cb : Nat
deriving DecidableEq, Repr

/-- An `Injectable`: its declared routes, listeners, and middlewares
(`__routes__`, `__listeners__`, `__middlewares__`). -/
structure Injectable where
  routes : List InjRoute
  listeners : List InjListener
  middlewares : List Nat
deriving DecidableEq, Repr

/-- The registration state of an `Application`: the router's route mapping
keyed by (path, method) in registration order (Modelled from the spec:
atom/router.py is not in src/, spec.md §4.E), the `_listeners` mapping from
event name to its list of listeners (dict insertion order), and the
`_middlewares` list. -/
structure RegState where
  routes : List ((String × String) × Nat)
  listeners : List (String × List Nat)
  middlewares : List Nat
deriving DecidableEq, Repr

/-- Removal of a key from the route mapping (`dict.pop`): drops the first
entry carrying the key.  (Python raises `KeyError` when the key is absent;
the round-trip theorems stay in the domain where it is present.) -/
def eraseKey : List ((String × String) × Nat) → (String × String) →
    List ((String × String) × Nat)
  | [], _ => []
  | e :: rest, k => if e.1 = k then rest else e :: eraseKey rest k

/-- src/atom/app.py, `Application.add_event_listener` on the listeners
mapping: append to the event's list when the event is already a key,
otherwise insert the key at the end with a singleton list. -/
def addL (ls : List (String × List Nat)) (ev : String) (cb : Nat) :
    List (String × List Nat) :=
  if ls.any (fun e => e.1 = ev) then
    ls.map (fun e => if e.1 = ev then (e.1, e.2 ++ [cb]) else e)
  else ls ++ [(ev, [cb])]

/-- src/atom/app.py, `Application.remove_event_listener` on the listeners
mapping: `self._listeners[event].remove(listener)` — the event's list loses
its first occurrence of the listener; the key itself stays.  (Python raises
when the event key or the listener is absent; the round-trip theorems stay
in the domain where both are present.) -/
def remL (ls : List (String × List Nat)) (ev : String) (cb : Nat) :
    List (String × List Nat) :=
  ls.map (fun e => if e.1 = ev then (e.1, e.2.erase cb) else e)

/-- src/atom/app.py, `Application.inject`: three loops — routes, listeners,
middlewares — each binding the callback to the object (`bind` models the
`functools.partial` rebinding, which inject also writes back onto the
object) and registering it.  `add_route` appends to the route mapping (its
duplicate-key `RegistrationError` is sidestepped by the freshness hypotheses
of the theorems below), `add_event_listener` is `addL`, `add_middleware`
appends.  The three loops touch disjoint fields of the state and are
recorded per field. -/
def inject (bind : Nat → Nat) (obj : Injectable) (s : RegState) : RegState where
  routes := obj.routes.foldl
    (fun l r => l ++ [((r.path, r.method), bind r.cb)]) s.routes
  listeners := obj.listeners.foldl
    (fun l x => addL l x.event (bind x.cb)) s.listeners
  middlewares := obj.middlewares.foldl (fun l m => l ++ [bind m]) s.middlewares

/-- src/atom/app.py, `Application.eject`: three loops — routes, listeners,
middlewares — unregistering what inject registered.  `remove_route` pops the
(path, method) key; `remove_event_listener` and `remove_middleware` remove
by value the entries carrying the bound callbacks (which eject reads off the
object, where inject stored them). -/
def eject (bind : Nat → Nat) (obj : Injectable) (s : RegState) : RegState where
  routes := obj.routes.foldl (fun l r => eraseKey l (r.path, r.method)) s.routes
  listeners := obj.listeners.foldl
    (fun l x => remL l x.event (bind x.cb)) s.listeners
  middlewares := obj.middlewares.foldl (fun l m => l.erase (bind m)) s.middlewares

/-- C7 (counterexample): injecting an object with one listener for an event
the application had no listeners for, then ejecting it, does not restore the
registration state: the listeners mapping keeps the event key, now bound to
an empty list (observable: dispatch then finds a registered — empty — entry
and skips the fallback to the application's own method). -/
theorem C7_counterexample :
    eject id ⟨[], [⟨"on_x", 1⟩], []⟩
        (inject id ⟨[], [⟨"on_x", 1⟩], []⟩ ⟨[], [], []⟩) =
      RegState.mk [] [("on_x", [])] [] ∧
    eject id ⟨[], [⟨"on_x", 1⟩], []⟩
        (inject id ⟨[], [⟨"on_x", 1⟩], []⟩ ⟨[], [], []⟩) ≠
      RegState.mk [] [] [] := by
  refine ⟨rfl, ?_⟩
  decide

/-- Removal keeps every entry's key, so key membership is unchanged. -/
theorem any_fst_map (ls : List (String × List Nat))
    (g : String × List Nat → String × List Nat)
    (hg : ∀ e, (g e).1 = e.1) (ev : String) :
    ((ls.map g).any fun e => e.1 = ev) = (ls.any fun e => e.1 = ev) := by
  induction ls with
  | nil => rfl
  | cons e rest ih => simp [hg, ih]

/-- Key membership is unchanged by `remL`. -/
theorem any_remL (ls : List (String × List Nat)) (ev : String) (cb : Nat)
    (ev' : String) :
    ((remL ls ev cb).any fun e => e.1 = ev') = (ls.any fun e => e.1 = ev') := by
  unfold remL
  apply any_fst_map
  intro e
  by_cases h : e.1 = ev <;> simp [h]

/-- Key membership only grows under `addL`. -/
theorem any_addL_mono (ls : List (String × List Nat)) (ev' : String) (cb' : Nat)
    (ev : String) (h : (ls.any fun e => e.1 = ev) = true) :
    ((addL ls ev' cb').any fun e => e.1 = ev) = true := by
  unfold addL
  by_cases hc : (ls.any fun e => e.1 = ev') = true
  · rw [if_pos hc]
    rw [any_fst_map]
    · exact h
    · intro e
      by_cases he : e.1 = ev' <;> simp [he]
  · rw [if_neg hc, List.any_append, h]
    rfl

/-- Membership of a callback in every matching entry survives `addL`. -/
theorem mem_addL_preserve (ls : List (String × List Nat)) (ev : String) (cb : Nat)
    (ev' : String) (cb' : Nat)
    (hKey : (ls.any fun e => e.1 = ev) = true)
    (hmem : ∀ e ∈ ls, e.1 = ev → cb ∈ e.2) :
    ∀ e ∈ addL ls ev' cb', e.1 = ev → cb ∈ e.2 := by
  unfold addL
  by_cases hc : (ls.any fun e => e.1 = ev') = true
  · rw [if_pos hc]
    intro e he hev
    obtain ⟨x, hx, hfx⟩ := List.mem_map.mp he
    by_cases hx1 : x.1 = ev'
    · rw [if_pos hx1] at hfx
      subst hfx
      exact List.mem_append_left _ (hmem x hx hev)
    · rw [if_neg hx1] at hfx
      subst hfx
      exact hmem x hx hev
  · rw [if_neg hc]
    intro e he hev
    rcases List.mem_append.mp he with hin | hsing
    · exact hmem e hin hev
    · exfalso
      rw [List.mem_singleton] at hsing
      subst hsing
      have hev' : ev' = ev := hev
      subst hev'
      exact hc hKey

/-- After `addL ls ev cb`, every entry keyed `ev` contains `cb`. -/
theorem mem_addL_self (ls : List (String × List Nat)) (ev : String) (cb : Nat)
    (hKey : (ls.any fun e => e.1 = ev) = true) :
    ∀ e ∈ addL ls ev cb, e.1 = ev → cb ∈ e.2 := by
  unfold addL
  rw [if_pos hKey]
  intro e he hev
  obtain ⟨x, hx, hfx⟩ := List.mem_map.mp he
  by_cases hx1 : x.1 = ev
  · rw [if_pos hx1] at hfx
    subst hfx
    simp
  · rw [if_neg hx1] at hfx
    subst hfx
    exact absurd hev hx1

/-- Removing a callback that is already present below the appended one
commutes with a later `addL`. -/
theorem remL_addL_comm (ls : List (String × List Nat)) (ev ev' : String)
    (cb cb' : Nat)
    (hKey : (ls.any fun e => e.1 = ev) = true)
    (hmem : ∀ e ∈ ls, e.1 = ev → cb ∈ e.2) :
    remL (addL ls ev' cb') ev cb = addL (remL ls ev cb) ev' cb' := by
  unfold addL
  rw [any_remL]
  by_cases hc : (ls.any fun e => e.1 = ev') = true
  · rw [if_pos hc, if_pos hc]
    unfold remL
    rw [List.map_map, List.map_map]
    apply List.map_congr_left
    intro e he
    obtain ⟨k, v⟩ := e
    simp only [Function.comp_apply]
    by_cases h1 : k = ev
    · subst h1
      by_cases h2 : k = ev'
      · subst h2
        have hcb : cb ∈ v := hmem (k, v) he rfl
        simp [List.erase_append_left [cb'] hcb]
      · simp [h2]
    · by_cases h2 : k = ev'
      · subst h2
        simp [h1]
      · simp [h1, h2]
  · have hne : ev' ≠ ev := by
      intro hh
      subst hh
      exact hc hKey
    rw [if_neg hc, if_neg hc]
    unfold remL
    rw [List.map_append]
    simp [hne]

/-- Removing the callback just added by `addL` restores the mapping, when
the event key was present and the callback fresh. -/
theorem remL_addL_cancel (ls : List (String × List Nat)) (ev : String) (cb : Nat)
    (hKey : (ls.any fun e => e.1 = ev) = true)
    (hfresh : ∀ e ∈ ls, e.1 = ev → cb ∉ e.2) :
    remL (addL ls ev cb) ev cb = ls := by
  unfold addL
  rw [if_pos hKey]
  unfold remL
  rw [List.map_map]
  have hid : ∀ e ∈ ls,
      ((fun e => if e.1 = ev then (e.1, e.2.erase cb) else e) ∘
        fun e => if e.1 = ev then (e.1, e.2 ++ [cb]) else e) e = e := by
    intro e he
    obtain ⟨k, v⟩ := e
    by_cases h1 : k = ev
    · subst h1
      have hcb : cb ∉ v := hfresh (k, v) he rfl
      simp [Function.comp_apply, List.erase_append_right _ hcb]
    · simp [Function.comp_apply, h1]
  rw [List.map_congr_left hid]
  simp

/-- A removal of a previously present callback pulls through a fold of
`addL` registrations. -/
theorem remL_foldl_addL (bind : Nat → Nat) (ps : List InjListener) :
    ∀ (ls : List (String × List Nat)) (ev : String) (cb : Nat),
    (ls.any fun e => e.1 = ev) = true →
    (∀ e ∈ ls, e.1 = ev → cb ∈ e.2) →
    remL (ps.foldl (fun l x => addL l x.event (bind x.cb)) ls) ev cb =
      ps.foldl (fun l x => addL l x.event (bind x.cb)) (remL ls ev cb) := by
  induction ps with
  | nil =>
    intro ls ev cb _ _
    rfl
  | cons p rest ih =>
    intro ls ev cb hKey hmem
    simp only [List.foldl_cons]
    rw [ih (addL ls p.event (bind p.cb)) ev cb
        (any_addL_mono ls p.event (bind p.cb) ev hKey)
        (mem_addL_preserve ls ev cb p.event (bind p.cb) hKey hmem),
      remL_addL_comm ls ev p.event cb (bind p.cb) hKey hmem]

/-- Registering a batch of listeners and then unregistering it, in the same
order, restores the listeners mapping — when every event key was already
present and the bound callbacks are fresh for their event. -/
theorem listeners_round (bind : Nat → Nat) (ps : List InjListener)
    (ls : List (String × List Nat))
    (hKey : ∀ p ∈ ps, (ls.any fun e => e.1 = p.event) = true)
    (hfresh : ∀ p ∈ ps, ∀ e ∈ ls, e.1 = p.event → bind p.cb ∉ e.2) :
    ps.foldl (fun l x => remL l x.event (bind x.cb))
      (ps.foldl (fun l x => addL l x.event (bind x.cb)) ls) = ls := by
  induction ps with
  | nil => rfl
  | cons p rest ih =>
    simp only [List.foldl_cons]
    have hpk := hKey p (List.mem_cons_self p rest)
    rw [remL_foldl_addL bind rest (addL ls p.event (bind p.cb)) p.event (bind p.cb)
        (any_addL_mono ls p.event (bind p.cb) p.event hpk)
        (mem_addL_self ls p.event (bind p.cb) hpk),
      remL_addL_cancel ls p.event (bind p.cb) hpk
        (hfresh p (List.mem_cons_self p rest))]
    exact ih (fun q hq => hKey q (List.mem_cons_of_mem p hq))
      (fun q hq => hfresh q (List.mem_cons_of_mem p hq))

/-- Popping a key not occurring in a left part skips over it. -/
theorem eraseKey_append_left (xs ys : List ((String × String) × Nat))
    (k : String × String) (h : k ∉ xs.map Prod.fst) :
    eraseKey (xs ++ ys) k = xs ++ eraseKey ys k := by
  induction xs with
  | nil => rfl
  | cons e rest ih =>
    have hne : e.1 ≠ k := by
      intro hh
      exact h (by simp [hh])
    simp only [List.cons_append, eraseKey, if_neg hne]
    exact congrArg (e :: ·) (ih (fun hm => h (by simp [hm])))

/-- Registering a batch of routes and then popping their keys, in the same
order, restores the route mapping — when the keys are fresh. -/
theorem routes_round (bind : Nat → Nat) (rs : List InjRoute) :
    ∀ xs : List ((String × String) × Nat),
    (∀ r ∈ rs, (r.path, r.method) ∉ xs.map Prod.fst) →
    rs.foldl (fun l r => eraseKey l (r.path, r.method))
      (rs.foldl (fun l r => l ++ [((r.path, r.method), bind r.cb)]) xs) = xs := by
  have hadd : ∀ (rs : List InjRoute) (xs : List ((String × String) × Nat)),
      rs.foldl (fun l r => l ++ [((r.path, r.method), bind r.cb)]) xs =
        xs ++ rs.map (fun r => ((r.path, r.method), bind r.cb)) := by
    intro rs
    induction rs with
    | nil => intro xs; simp
    | cons r rest ih =>
      intro xs
      simp only [List.foldl_cons, List.map_cons]
      rw [ih]
      simp
  have herase : ∀ (rs : List InjRoute) (xs : List ((String × String) × Nat)),
      (∀ r ∈ rs, (r.path, r.method) ∉ xs.map Prod.fst) →
      rs.foldl (fun l r => eraseKey l (r.path, r.method))
        (xs ++ rs.map fun r => ((r.path, r.method), bind r.cb)) = xs := by
    intro rs
    induction rs with
    | nil => intro xs _; simp
    | cons r rest ih =>
      intro xs hf
      simp only [List.foldl_cons, List.map_cons]
      rw [eraseKey_append_left xs _ _ (hf r (List.mem_cons_self r rest))]
      simp only [eraseKey, if_pos rfl]
      exact ih xs (fun q hq => hf q (List.mem_cons_of_mem r hq))
  intro xs hf
  rw [hadd rs xs]
  exact herase rs xs hf

/-- Registering a batch of middlewares and then removing them by value, in
the same order, restores the middleware list — when the bound callbacks are
fresh. -/
theorem middlewares_round (bind : Nat → Nat) (ms : List Nat) :
    ∀ xs : List Nat, (∀ m ∈ ms, bind m ∉ xs) →
    ms.foldl (fun l m => l.erase (bind m))
      (ms.foldl (fun l m => l ++ [bind m]) xs) = xs := by
  have hadd : ∀ (ms : List Nat) (xs : List Nat),
      ms.foldl (fun l m => l ++ [bind m]) xs = xs ++ ms.map bind := by
    intro ms
    induction ms with
    | nil => intro xs; simp
    | cons m rest ih =>
      intro xs
      simp only [List.foldl_cons, List.map_cons]
      rw [ih]
      simp
  have herase : ∀ (ms : List Nat) (xs : List Nat), (∀ m ∈ ms, bind m ∉ xs) →
      ms.foldl (fun l m => l.erase (bind m)) (xs ++ ms.map bind) = xs := by
    intro ms
    induction ms with
    | nil => intro xs _; simp
    | cons m rest ih =>
      intro xs hf
      simp only [List.foldl_cons, List.map_cons]
      rw [List.erase_append_right _ (hf m (List.mem_cons_self m rest)),
        List.erase_cons_head]
      exact ih xs (fun q hq => hf q (List.mem_cons_of_mem m hq))
  intro xs hf
  rw [hadd ms xs]
  exact herase ms xs hf

/-- C7 (amended): `eject(obj)` after `inject(obj)` removes exactly the
entries inject registered, and restores the registration state under the
conditions Python's removal calls assume anyway — fresh route keys, and
bound callbacks not already registered — provided additionally that every
listener's event was already a key of the listeners mapping.  (When an
event key was absent, the counterexample applies: the key survives ejection
with an empty list, so the state is not restored exactly.) -/
theorem C7_inject_eject (bind : Nat → Nat) (obj : Injectable) (s : RegState)
    (hroutesFresh : ∀ r ∈ obj.routes, (r.path, r.method) ∉ s.routes.map Prod.fst)
    (hlistKey : ∀ l ∈ obj.listeners,
      (s.listeners.any fun e => e.1 = l.event) = true)
    (hlistFresh : ∀ l ∈ obj.listeners, ∀ e ∈ s.listeners,
      e.1 = l.event → bind l.cb ∉ e.2)
    (hmwFresh : ∀ m ∈ obj.middlewares, bind m ∉ s.middlewares) :
    eject bind obj (inject bind obj s) = s := by
  unfold inject eject
  cases s with
  | mk rts ls mws =>
    simp only [RegState.mk.injEq]
    refine ⟨?_, ?_, ?_⟩
    · exact routes_round bind obj.routes rts hroutesFresh
    · exact listeners_round bind obj.listeners ls hlistKey hlistFresh
    · exact middlewares_round bind obj.middlewares mws hmwFresh

/-- C7 (witness): the amended theorem at a concrete state — one existing
route, one listener under the event key "on_x", one middleware — and an
object contributing one fresh route, one fresh listener for "on_x", and one
fresh middleware. -/
theorem C7_inject_eject_witness :
    eject id ⟨[⟨"/p", "GET", 5⟩], [⟨"on_x", 2⟩], [9]⟩
        (inject id ⟨[⟨"/p", "GET", 5⟩], [⟨"on_x", 2⟩], [9]⟩
          ⟨[(("/q", "GET"), 4)], [("on_x", [1])], [3]⟩) =
      RegState.mk [(("/q", "GET"), 4)] [("on_x", [1])] [3] :=
  C7_inject_eject id ⟨[⟨"/p", "GET", 5⟩], [⟨"on_x", 2⟩], [9]⟩
    ⟨[(("/q", "GET"), 4)], [("on_x", [1])], [3]⟩
    (by decide) (by decide) (by decide) (by decide)

/- ===================================================================
   Section 11: body streaming
   (src/railway/request.py, HTTPConnection.stream)
   =================================================================== -/

/-- Modelled from the spec: one read attempt against the `StreamReader`
(railway/streams.py is not in src/; spec.md §4.A).  `okRead c` is a
successful `reader.read(65536, timeout=timeout)` returning chunk `c`;
`timedOut` is an `asyncio.TimeoutError`; `eofPartial p` is a `PartialRead`
carrying the partial bytes `p`, raised on EOF — after it `at_eof()` is
true. -/
inductive ReadEvent where
  | okRead (chunk : List Nat)
  | timedOut
  | eofPartial (bytes : List Nat)
deriving DecidableEq, Repr

/-- src/railway/request.py, `HTTPConnection.stream`, the read loop: while
the reader is not at EOF, read 65,536 bytes with the caller's timeout; a
`TimeoutError` continues the loop without yielding; a `PartialRead` yields
the partial bytes, and the loop then stops because the reader is at EOF.
`events` is the trace of reader outcomes. -/
def streamEvents : List ReadEvent → List (List Nat)
  | [] => []
  | .okRead c :: rest => c :: streamEvents rest
  | .timedOut :: rest => streamEvents rest
  | .eofPartial p :: _ => [p]

/-- src/railway/request.py, `HTTPConnection.stream`: a missing (or zero,
hence falsy) `Content-Length` yields a single empty chunk and returns;
otherwise the read loop runs. -/
def stream (contentLength : Option Nat) (events : List ReadEvent) :
    List (List Nat) :=
  match contentLength with
  | none => [[]]
  | some 0 => [[]]
  | some _ => streamEvents events

/-- Modelled from the spec: the reader serves exactly the request body (the
`Content-Length` bytes): each successful read returns the next 65,536 bytes,
or all remaining bytes when fewer are left; timeouts may interleave; the
reader reaches EOF exactly when the body is exhausted (spec.md §4.B). -/
inductive Delivers : List Nat → List ReadEvent → Prop where
  | nil : Delivers [] []
  | read {body : List Nat} {events : List ReadEvent} : body ≠ [] →
      Delivers (body.drop 65536) events →
      Delivers body (ReadEvent.okRead (body.take 65536) :: events)
  | timeout {body : List Nat} {events : List ReadEvent} :
      Delivers body events → Delivers body (ReadEvent.timedOut :: events)

/-- Over a complete delivery trace the yielded chunks concatenate to the
body. -/
theorem streamEvents_delivers (body : List Nat) (events : List ReadEvent)
    (h : Delivers body events) : (streamEvents events).flatten = body := by
  induction h with
  | nil => rfl
  | read hne _ ih =>
    simp only [streamEvents, List.flatten_cons, ih]
    exact List.take_append_drop 65536 _
  | timeout _ ih => exact ih

/-- Over a complete delivery trace every yielded chunk holds at most 65,536
bytes. -/
theorem streamEvents_chunk_bound (body : List Nat) (events : List ReadEvent)
    (h : Delivers body events) :
    ∀ c ∈ streamEvents events, c.length ≤ 65536 := by
  induction h with
  | nil => intro c hc; cases hc
  | read hne _ ih =>
    intro c hc
    rcases List.mem_cons.mp hc with hc1 | hc2
    · subst hc1
      simp [List.length_take_le]
    · exact ih c hc2
  | timeout _ ih => exact ih

/-- A `PartialRead` ends the iteration: whatever would have followed it in
the trace is never read. -/
theorem streamEvents_eofPartial (pre junk : List ReadEvent) (p : List Nat)
    (hpre : ∀ q, ReadEvent.eofPartial q ∉ pre) :
    streamEvents (pre ++ ReadEvent.eofPartial p :: junk) =
      streamEvents pre ++ [p] := by
  induction pre with
  | nil => rfl
  | cons e rest ih =>
    cases e with
    | okRead c =>
      simp only [List.cons_append, streamEvents]
      exact congrArg (c :: ·) (ih (fun q hq => hpre q (List.mem_cons_of_mem _ hq)))
    | timedOut =>
      simp only [List.cons_append, streamEvents]
      exact ih (fun q hq => hpre q (List.mem_cons_of_mem _ hq))
    | eofPartial q => exact absurd (List.mem_cons_self _ rest) (hpre q)

/-- C8: for a request with a (non-zero) `Content-Length`, `stream()` yields
the body in successive chunks of at most 65,536 bytes — each read asks for
65,536 — until the length is satisfied (the chunks concatenate to the whole
body); and whenever a read fails with `PartialRead`, the partial bytes are
yielded as the final chunk and iteration ends there. -/
theorem C8_stream (body : List Nat) (events pre junk : List ReadEvent)
    (p : List Nat) (hne : body ≠ [])
    (hd : Delivers body events)
    (hpre : ∀ q, ReadEvent.eofPartial q ∉ pre) :
    (stream (some body.length) events).flatten = body ∧
    (∀ c ∈ stream (some body.length) events, c.length ≤ 65536) ∧
    stream (some body.length) (pre ++ ReadEvent.eofPartial p :: junk) =
      streamEvents pre ++ [p] := by
  have hlen : body.length ≠ 0 := fun h => hne (List.length_eq_zero.mp h)
  have hs : ∀ evs, stream (some body.length) evs = streamEvents evs := by
    intro evs
    unfold stream
    cases hb : body.length with
    | zero => exact absurd hb hlen
    | succ n => rfl
  rw [hs events, hs (pre ++ ReadEvent.eofPartial p :: junk)]
  exact ⟨streamEvents_delivers body events hd,
    streamEvents_chunk_bound body events hd,
    streamEvents_eofPartial pre junk p hpre⟩

/-- C8 (witness): a 3-byte body delivered by one successful read, and a
trace where a read succeeds and the next fails with a `PartialRead` whose
bytes are yielded last (a later junk event is never reached). -/
theorem C8_stream_witness :
    (stream (some 3) [ReadEvent.okRead [1, 2, 3]]).flatten = [1, 2, 3] ∧
    (∀ c ∈ stream (some 3) [ReadEvent.okRead [1, 2, 3]], c.length ≤ 65536) ∧
    stream (some 3)
        ([ReadEvent.okRead [9]] ++ ReadEvent.eofPartial [7] :: [ReadEvent.timedOut]) =
      streamEvents [ReadEvent.okRead [9]] ++ [[7]] :=
  C8_stream [1, 2, 3] [ReadEvent.okRead [1, 2, 3]] [ReadEvent.okRead [9]]
    [ReadEvent.timedOut] [7] (by decide)
    (Delivers.read (by decide) Delivers.nil)
    (by intro q hq; simp at hq)
